import Mathlib

/-!
# SalesTag firmware — chunked BLE file-transfer engine, shallow embedding

This file embeds, in Lean, the protocol-relevant parts of
`new_componet/softwareV3/main/main.c`, `crc32c.c` and `ble_integrity.c`:

* the CRC32C routines (`crc32c_update`, `crc32c_calculate`) and the chunk
  CRC helper `ble_chunk_calculate_crc`;
* the MTU payload budget `payload_budget`;
* the filename validator `is_valid_filename` and the
  `START_WITH_FILENAME` GATT write handler;
* the control-surface entry points (`file_transfer_start`,
  `file_transfer_start_with_filename`, `file_transfer_select_file`,
  `file_transfer_pause`, `file_transfer_resume`, `file_transfer_stop`);
* the worker task send loop of `file_xfer_task`, including the credit
  semaphore, the bounded-retry submission loop, and the terminal status
  emission.

Machine integers are modelled as `Nat` with explicit masks where the C
code masks (all relevant sizes are below `2^32`, so `uint32_t` arithmetic
never wraps on the modelled quantities; the `uint16_t` sequence counter
does wrap and is modelled with an explicit `% 65536`).  The asynchronous
environment (ATT MTU queries, NOTIFY_TX delivery callbacks, mbuf
availability, notify return codes, concurrent writes to the pause flag)
is supplied as an explicit per-iteration schedule.
-/

namespace SalesTag

/-! ## CRC32C (`crc32c.c`) -/

/-- The Castagnoli polynomial used in `crc32c_init`. -/
def crc32cPoly : Nat := 0x1EDC6F41

/-- One inner round of the table generation loop in `crc32c_init`:
`crc = (crc & 1) ? (crc >> 1) ^ poly : (crc >> 1)`. -/
def crc32cTableRound (crc : Nat) : Nat :=
  if crc % 2 = 1 then (crc / 2) ^^^ crc32cPoly else crc / 2

/-- `j` applications of the table-generation round. -/
def crc32cTableRounds : Nat → Nat → Nat
  | 0, crc => crc
  | j + 1, crc => crc32cTableRounds j (crc32cTableRound crc)

/-- `crc32c_table[i]`: the byte `i` pushed through 8 rounds
(`crc32c_init` in `crc32c.c`). -/
def crc32c_table (i : Nat) : Nat := crc32cTableRounds 8 i

/-- Bitwise complement on 32 bits: `~crc` for a `uint32_t`. -/
def comp32 (x : Nat) : Nat := x ^^^ 0xFFFFFFFF

/-- The byte-folding loop body of `crc32c_update`:
`crc = crc32c_table[(crc ^ data[i]) & 0xFF] ^ (crc >> 8)`. -/
def crc32cFoldStep (crc d : Nat) : Nat :=
  crc32c_table ((crc ^^^ d) &&& 0xFF) ^^^ (crc >>> 8)

/-- The `for` loop of `crc32c_update` over a byte string. -/
def crc32cFold (crc : Nat) : List Nat → Nat
  | [] => crc
  | d :: rest => crc32cFold (crc32cFoldStep crc d) rest

/-- `crc32c_update(crc, data, len)` from `crc32c.c`:
complement, fold all bytes, complement again. -/
def crc32c_update (crc : Nat) (data : List Nat) : Nat :=
  comp32 (crc32cFold (comp32 crc) data)

/-- `crc32c_calculate(data, len)` from `crc32c.c`. -/
def crc32c_calculate (data : List Nat) : Nat :=
  crc32c_update 0xFFFFFFFF data

/-! ## `ble_chunk_calculate_crc` (`ble_integrity.c`)

The 16-byte packed header `ble_chunk_header_t` is CRC'd over its in-memory
little-endian representation (the target is little-endian). -/

/-- `ble_chunk_header_t` from `ble_integrity.h` (packed, 16 bytes). -/
structure BleChunkHeader where
  proto_ver : Nat
  seq : Nat
  file_id : Nat
  offset : Nat
  payload_len : Nat
  flags : Nat
deriving Repr, DecidableEq

/-- Little-endian bytes of a `uint16_t`. -/
def le16 (x : Nat) : List Nat := [x % 256, x / 256 % 256]

/-- Little-endian bytes of a `uint32_t`. -/
def le32 (x : Nat) : List Nat :=
  [x % 256, x / 256 % 256, x / 65536 % 256, x / 16777216 % 256]

/-- The 16-byte in-memory image of a packed `ble_chunk_header_t`. -/
def headerBytes (h : BleChunkHeader) : List Nat :=
  le16 h.proto_ver ++ le16 h.seq ++ le32 h.file_id ++ le32 h.offset ++
    le16 h.payload_len ++ le16 h.flags

/-- `ble_chunk_calculate_crc(header, payload, payload_len)` from
`ble_integrity.c`: seeds `0xFFFFFFFF`, folds the header with one
`crc32c_update` call, folds the payload with a second call when it is
non-empty, and returns the complement of the result. -/
def ble_chunk_calculate_crc (h : BleChunkHeader) (payload : List Nat) : Nat :=
  let crc := 0xFFFFFFFF
  let crc := crc32c_update crc (headerBytes h)
  let crc := if payload.length > 0 then crc32c_update crc payload else crc
  comp32 crc

/-! ## CRC lemmas -/

theorem comp32_comp32 (x : Nat) : comp32 (comp32 x) = x := by
  simp [comp32, Nat.xor_assoc]

theorem crc32cFold_append (a b : List Nat) (crc : Nat) :
    crc32cFold crc (a ++ b) = crc32cFold (crc32cFold crc a) b := by
  induction a generalizing crc with
  | nil => rfl
  | cons d rest ih => simpa [crc32cFold] using ih (crc32cFoldStep crc d)

theorem crc32c_update_append (crc : Nat) (a b : List Nat) :
    crc32c_update (crc32c_update crc a) b = crc32c_update crc (a ++ b) := by
  simp [crc32c_update, comp32_comp32, crc32cFold_append]

theorem crc32c_update_nil (crc : Nat) : crc32c_update crc [] = crc := by
  simp [crc32c_update, crc32cFold, comp32_comp32]

set_option maxRecDepth 8000 in
/-- C10 counterexample: on the all-zero header with empty payload,
`ble_chunk_calculate_crc` does NOT equal the single-pass CRC32C of the
concatenated header-plus-payload bytes (it is its bitwise complement:
the helper complements a value that `crc32c_update` had already
finalized). -/
theorem chunk_crc_not_single_pass_counterexample :
    ble_chunk_calculate_crc ⟨0, 0, 0, 0, 0, 0⟩ [] ≠
      crc32c_calculate (headerBytes ⟨0, 0, 0, 0, 0, 0⟩ ++ []) := by
  decide

/-- C10 (amended): the CRC32C routines are a homomorphism over byte-string
concatenation — for every initial crc and byte strings `a`, `b`,
`crc32c_update (crc32c_update crc a) b = crc32c_update crc (a ++ b)` —
and consequently `ble_chunk_calculate_crc`, which folds the 16-byte header
and then the payload in two update calls and then complements once more,
equals the bitwise complement of the single-pass CRC32C over the
concatenated header-plus-payload bytes. -/
theorem crc32c_hom_and_chunk_crc_complement :
    (∀ (crc : Nat) (a b : List Nat),
      crc32c_update (crc32c_update crc a) b = crc32c_update crc (a ++ b)) ∧
    (∀ (h : BleChunkHeader) (p : List Nat),
      ble_chunk_calculate_crc h p = comp32 (crc32c_calculate (headerBytes h ++ p))) := by
  refine ⟨crc32c_update_append, fun h p => ?_⟩
  unfold ble_chunk_calculate_crc crc32c_calculate
  rcases p with _ | ⟨d, rest⟩
  · simp [crc32c_update_nil]
  · simp [crc32c_update_append]

/-! ## Protocol constants (`main.c`) -/

def FT_PKT_MAX : Nat := 200
def FILE_TRANSFER_HEADER_SIZE : Nat := 5
def FT_MAX_RETRIES : Nat := 8
def SD_MAX_PATH : Nat := 256
/-- Capacity of the credit semaphore (`kMaxInFlight` in `main.c`). -/
def kMaxInFlight : Nat := 3

def STAT_STARTED : Nat := 0x01
def STAT_COMPLETE : Nat := 0x02
def STAT_STOPPED_BY_HOST : Nat := 0x03
def STAT_FILE_OPEN_FAIL : Nat := 0x10
def STAT_NOTIFY_FAIL : Nat := 0x11
def STAT_FILE_READ_FAIL : Nat := 0x13
def STAT_BAD_CMD : Nat := 0x20
def STAT_ALREADY_RUNNING : Nat := 0x21
def STAT_BUSY : Nat := 0x22
def STAT_NO_CONN : Nat := 0x23
def STAT_PAUSED : Nat := 0x30
def STAT_SUBSCRIPTION_REQUIRED : Nat := 0x40
def STAT_NO_FILE : Nat := 0x50
def STAT_LIST_READY : Nat := 0x60
def STAT_FILE_SELECTED : Nat := 0x61
def STAT_INVALID_INDEX : Nat := 0x62

/-- NimBLE ATT error code `BLE_ATT_ERR_INVALID_ATTR_VALUE_LEN`. -/
def BLE_ATT_ERR_INVALID_ATTR_VALUE_LEN : Nat := 0x0D

/-! ## Packet framer: `payload_budget` (`main.c`) -/

/-- `payload_budget(conn_handle)` from `main.c`, as a function of the
`int` returned by `ble_att_mtu`:

```
int mtu = ble_att_mtu(conn_handle);
if (mtu <= 0) mtu = 23;
int budget = mtu - 3 - FILE_TRANSFER_HEADER_SIZE;
if (budget < 1) budget = 1;
if (budget > (FT_PKT_MAX - FILE_TRANSFER_HEADER_SIZE))
    budget = FT_PKT_MAX - FILE_TRANSFER_HEADER_SIZE;
```
-/
def payload_budget (mtu : Int) : Nat :=
  let m : Int := if mtu ≤ 0 then 23 else mtu
  let b : Int := m - 3 - (FILE_TRANSFER_HEADER_SIZE : Int)
  let b : Int := if b < 1 then 1 else b
  let b : Int :=
    if b > (FT_PKT_MAX : Int) - (FILE_TRANSFER_HEADER_SIZE : Int)
    then (FT_PKT_MAX : Int) - (FILE_TRANSFER_HEADER_SIZE : Int) else b
  b.toNat

/-- Modelled from the spec: the claimed budget formula
`clamp(MTU - 3 - 5, 1, 195)` (transport overhead 3, header size 5,
maximum packet 200 so maximum payload 195). -/
def payload_budget_claim (mtu : Int) : Nat :=
  (max 1 (min (mtu - 3 - 5) 195)).toNat

theorem payload_budget_pos (mtu : Int) : 1 ≤ payload_budget mtu := by
  unfold payload_budget FILE_TRANSFER_HEADER_SIZE FT_PKT_MAX
  dsimp only
  split <;> split <;> split <;> simp_all <;> omega

theorem payload_budget_eq_claim (mtu : Int) (h : 0 < mtu) :
    payload_budget mtu = payload_budget_claim mtu := by
  unfold payload_budget payload_budget_claim
  dsimp only
  split
  · omega
  · unfold FILE_TRANSFER_HEADER_SIZE FT_PKT_MAX
    split <;> split <;> omega

/-! ## Global state (`main.c` statics)

One record holds the process-wide mutable globals that the file-transfer
engine reads and writes: the `TransferSession` fields
(`s_file_transfer_size/offset`, `s_bytes_sent`, `s_seq`,
`s_file_transfer_active/paused`, `s_file_transfer_fp`), the credit
semaphore count, the in-flight notify count it guards, the cross-cutting
flags (`s_is_recording`, `s_cccd_mask`, SD availability), the selected
file name `s_current_raw_file` and the worker command queue `s_ft_q`.
The data and status notification streams are recorded in `chunks` and
`statuses` (every `send_status`/data notify appends; in the firmware the
notification is dropped when no peer is connected, which does not change
how many are emitted). -/

/-- A successfully notified data packet: the five header bytes written into
`pkt[0..4]` plus the payload bytes. -/
structure Chunk where
  seqLo : Nat
  seqHi : Nat
  lenLo : Nat
  lenHi : Nat
  eofFlag : Nat
  payload : List Nat
deriving Repr, DecidableEq

/-- `pkt[0] = seq & 0xFF; pkt[1] = (seq >> 8) & 0xFF;
pkt[2] = n & 0xFF; pkt[3] = (n >> 8) & 0xFF; pkt[4] = eof ? 1 : 0`. -/
def mkChunk (seq n : Nat) (eof : Bool) (payload : List Nat) : Chunk :=
  ⟨seq % 256, seq / 256 % 256, n % 256, n / 256 % 256,
    if eof then 1 else 0, payload⟩

/-- The 16-bit sequence number carried by a chunk header. -/
def chunkSeq (c : Chunk) : Nat := c.seqLo + 256 * c.seqHi

/-- Worker command queue entries (`ft_msg_t.type`). -/
inductive FtCmd
  | start
  | stop
deriving Repr, DecidableEq

structure Globals where
  size : Nat            -- s_file_transfer_size
  offset : Nat          -- s_file_transfer_offset
  bytesSent : Nat       -- s_bytes_sent
  seq : Nat             -- s_seq (uint16_t)
  filePos : Nat         -- position of the open FILE stream
  active : Bool         -- s_file_transfer_active
  paused : Bool         -- s_file_transfer_paused
  fpOpen : Bool         -- s_file_transfer_fp != NULL
  credits : Nat         -- count of s_notify_sem
  inFlight : Nat        -- notifies submitted, awaiting NOTIFY_TX
  recording : Bool      -- s_is_recording
  cccdMask : Nat        -- s_cccd_mask
  sdAvailable : Bool    -- sd_storage_is_available()
  currentRawFile : List Nat  -- s_current_raw_file ([] = empty string)
  queue : List FtCmd    -- contents of s_ft_q
  chunks : List Chunk   -- data notifications emitted so far
  statuses : List Nat   -- status notifications emitted so far
deriving Repr, DecidableEq

/-- `send_status(code)`: one status byte notified on the status channel. -/
def send_status (g : Globals) (code : Nat) : Globals :=
  { g with statuses := g.statuses ++ [code] }

/-- `notifies_ready()`: both CCCD bits set. -/
def notifies_ready (g : Globals) : Bool := g.cccdMask &&& 0x03 == 0x03

/-! ## File registry helpers and selection (`main.c`) -/

/-- Result of `stat()` on a path, as far as the engine inspects it. -/
structure StatInfo where
  isReg : Bool   -- S_ISREG(st.st_mode)
  size : Nat     -- st.st_size
  mtime : Nat    -- st.st_mtime
deriving Repr, DecidableEq

/-- A `readdir` entry of the recordings directory. -/
structure DirEnt where
  name : List Nat  -- d_name bytes
  isReg : Bool     -- d_type == DT_REG
deriving Repr, DecidableEq

/-- The byte string `".raw"`. -/
def DOT_RAW : List Nat := [46, 114, 97, 119]

/-- The byte string `"/sdcard/rec"`. -/
def REC_DIR : List Nat := [47, 115, 100, 99, 97, 114, 100, 47, 114, 101, 99]

/-- `strstr(s, sub) != NULL`: `sub` occurs contiguously in `s`. -/
def containsSub (sub s : List Nat) : Bool :=
  s.tails.any (fun t => sub.isPrefixOf t)

/-- `strrchr(name, '.')` followed by `strcmp(ext, ".raw") == 0`: the
suffix starting at the last dot is exactly `".raw"`, i.e. the name ends
in `".raw"`. -/
def hasRawExt (name : List Nat) : Bool := DOT_RAW.isSuffixOf name

/-- `file_transfer_start()` (`main.c`): validate preconditions, then
enqueue `FT_CMD_START` to the worker. -/
def file_transfer_start (g : Globals) : Globals :=
  if g.active then send_status g STAT_ALREADY_RUNNING
  else if g.recording then send_status g STAT_BUSY
  else if !notifies_ready g then send_status g STAT_SUBSCRIPTION_REQUIRED
  else if !g.sdAvailable then send_status g STAT_FILE_OPEN_FAIL
  else { g with queue := g.queue ++ [FtCmd.start] }

/-- `file_transfer_start_with_filename(requested_filename)` (`main.c`).
`statOf` models `stat()` on the filesystem: `none` when the path does not
exist.  The full path is `"/sdcard/rec/<name>"`, with `".raw"` appended
when the requested name does not contain `".raw"` (the source uses
`strstr`, i.e. containment, not a suffix check). -/
def file_transfer_start_with_filename (statOf : List Nat → Option StatInfo)
    (g : Globals) (req : List Nat) : Globals :=
  if g.active then send_status g STAT_ALREADY_RUNNING
  else if g.recording then send_status g STAT_BUSY
  else if !notifies_ready g then send_status g STAT_SUBSCRIPTION_REQUIRED
  else if !g.sdAvailable then send_status g STAT_FILE_OPEN_FAIL
  else
    let full_path :=
      if containsSub DOT_RAW req then REC_DIR ++ [47] ++ req
      else REC_DIR ++ [47] ++ req ++ DOT_RAW
    match statOf full_path with
    | none => send_status g STAT_NO_FILE
    | some st =>
      if !st.isReg then send_status g STAT_FILE_OPEN_FAIL
      else if st.size = 0 then send_status g STAT_NO_FILE
      else
        { g with currentRawFile := full_path, queue := g.queue ++ [FtCmd.start] }

/-- The scan loop of `file_transfer_select_file`: collect `.raw` regular
files (stat succeeds, regular, non-empty), with their mtimes, in readdir
order, stopping at 256 entries. -/
def selectScan (statOf : List Nat → Option StatInfo) :
    List DirEnt → Nat → List (List Nat × Nat)
  | [], _ => []
  | e :: rest, count =>
    if count < 256 then
      if e.isReg && hasRawExt e.name then
        match statOf (REC_DIR ++ [47] ++ e.name) with
        | some st =>
          if st.isReg && decide (0 < st.size) then
            (e.name, st.mtime) :: selectScan statOf rest (count + 1)
          else selectScan statOf rest count
        | none => selectScan statOf rest count
      else selectScan statOf rest count
    else []

/-- One outer pass of the exchange sort in `file_transfer_select_file`
(“sort files by modification time, newest first”): it brings a file of
maximal mtime to the front; `selectSortDesc` repeats on the tail. -/
def selectMax (p : List Nat × Nat) : List (List Nat × Nat) →
    (List Nat × Nat) × List (List Nat × Nat)
  | [] => (p, [])
  | q :: rest =>
    if q.2 > p.2 then
      let (m, l) := selectMax q rest
      (m, p :: l)
    else
      let (m, l) := selectMax p rest
      (m, q :: l)

/-- Sort candidates by mtime, descending (the source's in-place exchange
sort; ties keep an arbitrary maximal element first, which the spec leaves
unspecified).  Structural on a fuel that starts at the list length. -/
def selectSortDescF : Nat → List (List Nat × Nat) → List (List Nat × Nat)
  | _, [] => []
  | 0, l => l
  | fuel + 1, p :: rest =>
    let (m, l) := selectMax p rest
    m :: selectSortDescF fuel l

def selectSortDesc (l : List (List Nat × Nat)) : List (List Nat × Nat) :=
  selectSortDescF l.length l

/-- `file_transfer_select_file(file_index)` (`main.c`): precondition
checks, scan and sort the recordings directory, bounds-check the index,
then record the selection and enqueue `FT_CMD_START`. -/
def file_transfer_select_file (entries : List DirEnt)
    (statOf : List Nat → Option StatInfo) (g : Globals) (idx : Nat) : Globals :=
  if g.active then send_status g STAT_ALREADY_RUNNING
  else if g.recording then send_status g STAT_BUSY
  else if !notifies_ready g then send_status g STAT_SUBSCRIPTION_REQUIRED
  else if !g.sdAvailable then send_status g STAT_FILE_OPEN_FAIL
  else
    let files := selectScan statOf entries 0
    if files.length = 0 then send_status g STAT_NO_FILE
    else
      let sorted := selectSortDesc files
      if idx ≥ sorted.length then send_status g STAT_INVALID_INDEX
      else
        let chosen := (sorted.drop idx).headI
        let g := { g with currentRawFile := REC_DIR ++ [47] ++ chosen.1 }
        let g := send_status g STAT_FILE_SELECTED
        { g with queue := g.queue ++ [FtCmd.start] }

/-- `file_transfer_pause()` (`main.c`): with no active transfer it only
logs and returns — no status is emitted, although the comment claims
“error communicated via status”.  With an active transfer it sets the
pause flag and emits `STAT_PAUSED`. -/
def file_transfer_pause (g : Globals) : Globals :=
  if !g.active then g
  else send_status { g with paused := true } STAT_PAUSED

/-- `file_transfer_resume()` (`main.c`): no-op without an active
transfer; otherwise clears the pause flag (no status). -/
def file_transfer_resume (g : Globals) : Globals :=
  if !g.active then g
  else { g with paused := false }

/-- `file_transfer_stop()` (`main.c`): unconditionally enqueue
`FT_CMD_STOP`. -/
def file_transfer_stop (g : Globals) : Globals :=
  { g with queue := g.queue ++ [FtCmd.stop] }

/-! ## Filename validation (`is_valid_filename`) and the
`START_WITH_FILENAME` write handler (`gatt_svr_chr_access`) -/

/-- `isalnum(c)` for the byte values a C string can carry (ASCII
digits, upper- and lower-case letters). -/
def isAlnumByte (c : Nat) : Bool :=
  (48 ≤ c && c ≤ 57) || (65 ≤ c && c ≤ 90) || (97 ≤ c && c ≤ 122)

/-- The per-character allow-list of `is_valid_filename`:
alphanumeric, `'.'` (46), `'_'` (95), `'-'` (45). -/
def validFilenameChar (c : Nat) : Bool :=
  isAlnumByte c || c == 46 || c == 95 || c == 45

/-- `is_valid_filename(filename)` from `main.c`, on the bytes of the
C string (non-NUL bytes): reject NULL/empty, length outside 1..255, any
character outside the allow-list, then any occurrence of `".."`, `"/"`
(47) or `"\\"` (92). -/
def is_valid_filename (name : List Nat) : Bool :=
  if name = [] then false
  else
    let len := name.length
    if len > 255 || len < 1 then false
    else if !(name.all validFilenameChar) then false
    else if containsSub [46, 46] name || containsSub [47] name ||
        containsSub [92] name then false
    else true

/-- Outcome of the `FILE_TRANSFER_CMD_START_WITH_FILENAME` branch of
`gatt_svr_chr_access`.  `attError` and `rejected` return before any
filesystem access and enqueue nothing; `delegated` is the call into
`file_transfer_start_with_filename`, the first point that can touch the
filesystem or create a session. -/
inductive SwfOutcome
  | attError (code : Nat)
  | rejected (status : Nat)
  | delegated (name : List Nat)
deriving Repr, DecidableEq

/-- `true` iff the handler returned without reaching
`file_transfer_start_with_filename`. -/
def SwfOutcome.rejectsEarly : SwfOutcome → Bool
  | .delegated _ => false
  | _ => true

/-- The `FILE_TRANSFER_CMD_START_WITH_FILENAME` case of
`gatt_svr_chr_access`, on the full written value `om` (command byte
followed by filename bytes).  The copied bytes are NUL-terminated, so the
requested filename is the written bytes up to the first NUL. -/
def handle_start_with_filename (om : List Nat) : SwfOutcome :=
  if om.length < 2 then SwfOutcome.attError BLE_ATT_ERR_INVALID_ATTR_VALUE_LEN
  else
    let filename_len := om.length - 1
    if filename_len ≥ SD_MAX_PATH then
      SwfOutcome.attError BLE_ATT_ERR_INVALID_ATTR_VALUE_LEN
    else
      let requested := (om.drop 1).takeWhile (fun c => c ≠ 0)
      if !is_valid_filename requested then SwfOutcome.rejected STAT_BAD_CMD
      else SwfOutcome.delegated requested

/-- The badness condition of claim C9 on a requested name. -/
def badName (name : List Nat) : Prop :=
  containsSub [46, 46] name = true ∨ containsSub [47] name = true ∨
  containsSub [92] name = true ∨ name.all validFilenameChar = false ∨
  name = [] ∨ name.length > 255

instance (name : List Nat) : Decidable (badName name) := by
  unfold badName
  infer_instance

theorem is_valid_filename_true_props (name : List Nat)
    (h : is_valid_filename name = true) :
    name ≠ [] ∧ name.length ≤ 255 ∧ name.all validFilenameChar = true ∧
    containsSub [46, 46] name = false ∧ containsSub [47] name = false ∧
    containsSub [92] name = false := by
  unfold is_valid_filename at h
  split at h
  · simp at h
  · dsimp only at h
    split at h
    · simp at h
    · split at h
      · simp at h
      · split at h
        · simp at h
        · simp_all

theorem is_valid_filename_false_of_bad (name : List Nat) (h : badName name) :
    is_valid_filename name = false := by
  cases hv : is_valid_filename name
  · rfl
  · exfalso
    obtain ⟨h1, h2, h3, h4, h5, h6⟩ := is_valid_filename_true_props name hv
    rcases h with h | h | h | h | h | h <;> simp_all <;> omega

end SalesTag

namespace SalesTag

/-- Baseline global state: idle engine, full credit pool, nothing
recorded or queued. -/
def g0 : Globals :=
  { size := 0, offset := 0, bytesSent := 0, seq := 0, filePos := 0,
    active := false, paused := false, fpOpen := false,
    credits := kMaxInFlight, inFlight := 0,
    recording := false, cccdMask := 3, sdAvailable := true,
    currentRawFile := [], queue := [], chunks := [], statuses := [] }

/-- C9: a requested filename containing `".."`, `"/"` or `"\\"`, or any
character outside alphanumerics/`.`/`_`/`-`, or empty, or longer than 255
characters, fails `is_valid_filename`, and the `START_WITH_FILENAME`
write handler returns before `file_transfer_start_with_filename` is ever
called — hence before any filesystem access and without creating a
session (only the `delegated` outcome reaches the filesystem or the
command queue). -/
theorem filename_validation_rejects (om : List Nat)
    (h : badName ((om.drop 1).takeWhile (fun c => c ≠ 0))) :
    is_valid_filename ((om.drop 1).takeWhile (fun c => c ≠ 0)) = false ∧
    (handle_start_with_filename om).rejectsEarly = true := by
  refine ⟨is_valid_filename_false_of_bad _ h, ?_⟩
  unfold handle_start_with_filename
  split
  · rfl
  · dsimp only
    split
    · rfl
    · rw [is_valid_filename_false_of_bad _ h]
      simp [SwfOutcome.rejectsEarly]

/-- Witness for C9 at the concrete write `[0x07] ++ "../x"`. -/
theorem filename_validation_rejects_witness :
    badName (([7, 46, 46, 47, 120].drop 1).takeWhile (fun c => c ≠ 0)) ∧
    (is_valid_filename
        (([7, 46, 46, 47, 120].drop 1).takeWhile (fun c => c ≠ 0)) = false ∧
      (handle_start_with_filename [7, 46, 46, 47, 120]).rejectsEarly = true) :=
  ⟨by decide, filename_validation_rejects [7, 46, 46, 47, 120] (by decide)⟩

/-- C5: every start-type entry point (`file_transfer_start`,
`file_transfer_start_with_filename`, `file_transfer_select_file`)
received while a transfer is active emits exactly the `AlreadyRunning`
status and changes nothing else (the whole state, including the session's
offset and the command queue, is returned untouched apart from the
appended status byte); received while recording is active, each emits
`Busy` and likewise creates no session. -/
theorem start_mutual_exclusion (g : Globals)
    (statOf : List Nat → Option StatInfo) (entries : List DirEnt)
    (req : List Nat) (idx : Nat) :
    (∀ c, (send_status g c).offset = g.offset ∧
      (send_status g c).queue = g.queue ∧
      (send_status g c).active = g.active) ∧
    (g.active = true →
      file_transfer_start g = send_status g STAT_ALREADY_RUNNING ∧
      file_transfer_start_with_filename statOf g req =
        send_status g STAT_ALREADY_RUNNING ∧
      file_transfer_select_file entries statOf g idx =
        send_status g STAT_ALREADY_RUNNING) ∧
    (g.active = false → g.recording = true →
      file_transfer_start g = send_status g STAT_BUSY ∧
      file_transfer_start_with_filename statOf g req =
        send_status g STAT_BUSY ∧
      file_transfer_select_file entries statOf g idx =
        send_status g STAT_BUSY) := by
  refine ⟨fun c => ⟨rfl, rfl, rfl⟩, fun h => ?_, fun h1 h2 => ?_⟩
  · unfold file_transfer_start file_transfer_start_with_filename
      file_transfer_select_file
    simp [h]
  · unfold file_transfer_start file_transfer_start_with_filename
      file_transfer_select_file
    simp [h1, h2]

/-- Witness for C5: a concrete active state gets `AlreadyRunning`; a
concrete recording state gets `Busy`. -/
theorem start_mutual_exclusion_witness :
    file_transfer_start { g0 with active := true } =
      send_status { g0 with active := true } STAT_ALREADY_RUNNING ∧
    file_transfer_start { g0 with recording := true } =
      send_status { g0 with recording := true } STAT_BUSY :=
  ⟨((start_mutual_exclusion { g0 with active := true }
      (fun _ => none) [] [] 0).2.1 rfl).1,
   ((start_mutual_exclusion { g0 with recording := true }
      (fun _ => none) [] [] 0).2.2 rfl rfl).1⟩

/-- C8 (code bug): `file_transfer_pause` invoked with no active transfer
returns with NO status emitted — zero status bytes for a rejected command
outcome — even though its own comment says “error communicated via
status”.  With an active transfer it emits exactly one `Paused` status. -/
theorem pause_inactive_emits_no_status :
    file_transfer_pause g0 = g0 ∧
    (file_transfer_pause g0).statuses = [] ∧
    (file_transfer_pause { g0 with active := true }).statuses =
      [STAT_PAUSED] := by
  decide

end SalesTag

namespace SalesTag

/-! ## Worker task send loop (`file_xfer_task`, `main.c` lines 1485-1687)

The loop runs on the worker task while the BLE host task and controller
deliver events asynchronously.  Each top-of-loop iteration consults an
`IterEnv` drawn from a schedule: the current `ble_att_mtu` answer, whether
the connection handle is still set, any concurrent write to the volatile
pause flag, how many `BLE_GAP_EVENT_NOTIFY_TX` (status 0) callbacks have
returned credits since the last acquisition attempt, and the outcome of
each mbuf-allocation/notify attempt of the bounded submission loop. -/

/-- Outcome of one attempt of the inner submission loop. -/
inductive AttemptRes
  | allocFail      -- ble_hs_mbuf_from_flat returned NULL
  | sendOk         -- ble_gatts_notify_custom returned 0
  | transientErr   -- rc in {BLE_HS_ECONTROLLER, BLE_HS_ENOMEM, BLE_HS_EBUSY}
  | fatalErr       -- any other nonzero rc
deriving Repr, DecidableEq

/-- Environment of one top-of-loop iteration. -/
structure IterEnv where
  pauseSet : Option Bool      -- concurrent write to s_file_transfer_paused
  connUp : Bool               -- s_file_transfer_conn_handle != 0
  mtu : Int                   -- ble_att_mtu(conn_handle)
  deliveries : Nat            -- NOTIFY_TX(status=0) events processed before the take
  attempts : Nat → AttemptRes -- outcome of the k-th submission attempt

/-- Result of the bounded submission loop for one chunk. -/
structure SubmitOut where
  tries : Nat          -- final value of the C `tries` counter
  attemptsUsed : Nat   -- how many attempts the loop performed
  sent : Bool          -- the notify was accepted by the stack
  notifyFailed : Bool  -- STAT_NOTIFY_FAIL was sent and the credit returned
  delays : List Nat    -- the vTaskDelay backoffs taken, in ms, in order
deriving Repr, DecidableEq

/-- The exponential backoff of the mbuf-starvation branch, called with the
post-increment `tries`: `10 * (1 << (tries - 1))`, capped at 100 ms. -/
def expDelay (tries : Nat) : Nat :=
  let d := 10 * 2 ^ (tries - 1)
  if d > 100 then 100 else d

/-- The inner `for (;;)` submission loop of `file_xfer_task`
(lines 1596-1647): build an mbuf and notify, retrying mbuf starvation
with exponential backoff and transient controller errors with a fixed
8 ms backoff, at most `FT_MAX_RETRIES` attempts; on giving up it emits
`STAT_NOTIFY_FAIL` and returns the held credit.  `tries` strictly
increases on every retry, so `FT_MAX_RETRIES` fuel is never exhausted
when entered with `tries = 0`. -/
def submitLoop (att : Nat → AttemptRes) : Nat → Nat → Nat → SubmitOut
  | _, tries, 0 => ⟨tries, 0, false, true, []⟩
  | k, tries, fuel + 1 =>
    match att k with
    | .sendOk => ⟨tries, 1, true, false, []⟩
    | .fatalErr => ⟨tries, 1, false, true, []⟩
    | .allocFail =>
      if tries + 1 < FT_MAX_RETRIES then
        let out := submitLoop att (k + 1) (tries + 1) fuel
        ⟨out.tries, out.attemptsUsed + 1, out.sent, out.notifyFailed,
          expDelay (tries + 1) :: out.delays⟩
      else ⟨tries + 1, 1, false, true, []⟩
    | .transientErr =>
      if tries + 1 < FT_MAX_RETRIES then
        let out := submitLoop att (k + 1) (tries + 1) fuel
        ⟨out.tries, out.attemptsUsed + 1, out.sent, out.notifyFailed,
          8 :: out.delays⟩
      else ⟨tries + 1, 1, false, true, []⟩

/-- Result of one top-of-loop iteration: `done` leaves the `while` loop,
`next` runs another iteration. -/
inductive StepRes
  | done (g : Globals)
  | next (g : Globals)

/-- The state carried by a `StepRes`. -/
def StepRes.state : StepRes → Globals
  | .done g => g
  | .next g => g

/-- The `BLE_GAP_EVENT_NOTIFY_TX` (status 0) callbacks processed while
the worker waits on the credit semaphore: each returns one credit for an
in-flight data notify; `xSemaphoreGive` caps at the semaphore's capacity
`kMaxInFlight`. -/
def deliverCredits (deliveries : Nat) (g : Globals) : Globals :=
  let d := min deliveries g.inFlight
  { g with credits := min (g.credits + d) kMaxInFlight,
           inFlight := g.inFlight - d }

/-- The credit take plus bounded submission of one built packet
(lines 1584-1660): take one credit, run the bounded retry loop; on
success the credit stays with the in-flight notify, otherwise the loop
already emitted `STAT_NOTIFY_FAIL` and the credit is given back; if the
retry bound was exhausted (`tries >= FT_MAX_RETRIES`) abort the transfer,
otherwise advance offset, bytes-sent and the (wrapping `uint16_t`)
sequence counter — the source advances them even when a fatal notify
error skipped the chunk — and leave the loop when this chunk was the
end of the file. -/
def submitChunk (att : Nat → AttemptRes) (n : Nat) (eof : Bool)
    (payload : List Nat) (g : Globals) : StepRes :=
  let g := { g with credits := g.credits - 1 }
  let out := submitLoop att 0 0 FT_MAX_RETRIES
  let g :=
    if out.sent then { g with inFlight := g.inFlight + 1 }
    else { g with credits := min (g.credits + 1) kMaxInFlight,
                  statuses := g.statuses ++ [STAT_NOTIFY_FAIL] }
  if FT_MAX_RETRIES ≤ out.tries then
    StepRes.done { g with active := false }  -- abort the transfer
  else
    let g := { g with
      offset := g.offset + n,
      bytesSent := g.bytesSent + n,
      seq := (g.seq + 1) % 65536,
      chunks := g.chunks ++ (if out.sent then [mkChunk g.seq n eof payload] else []) }
    if eof then StepRes.done g else StepRes.next g

/-- One iteration of the `while (s_file_transfer_active &&
!s_file_transfer_paused)` send loop (lines 1550-1661).  Note the order
faithful to the source: the file is `fread` BEFORE the credit is
acquired, and a credit-acquisition timeout `continue`s without rewinding
the stream, so the bytes just read are dropped.  NOTIFY_TX callbacks are
folded in at the acquisition point (`deliverCredits`). -/
def xferStep (file : List Nat) (env : IterEnv) (g : Globals) : StepRes :=
  let g := { g with paused := env.pauseSet.getD g.paused }
  if g.active && !g.paused then
    if !env.connUp then StepRes.done (send_status g STAT_NO_CONN)
    else
      let remain := g.size - g.offset
      if remain = 0 then StepRes.done g
      else
        let budget := payload_budget env.mtu
        let to_read := min remain budget
        let n := min to_read (file.length - g.filePos)
        let payload := (file.drop g.filePos).take n
        let g := { g with filePos := g.filePos + n }
        if n = 0 then StepRes.done g  -- fread returned 0: feof, break
        else
          let eof := decide (g.size ≤ g.offset + n)
          let g := deliverCredits env.deliveries g
          if g.credits = 0 then
            -- xSemaphoreTake timed out: backpressure, sleep 10 ms, continue
            StepRes.next g
          else submitChunk env.attempts n eof payload g
  else StepRes.done g

/-- The send loop as iterated steps.  `fuel` bounds the number of
iterations; every claim about the loop supplies enough fuel (each
iteration either leaves the loop or strictly decreases
`(size - offset) + (file.length - filePos)`). -/
def xferLoopF (file : List Nat) (sched : Nat → IterEnv) :
    Nat → Nat → Globals → Globals
  | 0, _, g => g
  | fuel + 1, i, g =>
    match xferStep file (sched i) g with
    | .done g' => g'
    | .next g' => xferLoopF file sched fuel (i + 1) g'

/-- The worker's handling of one `FT_CMD_START` message
(lines 1492-1674), given the contents of the resolved, opened file:
initialize the session fields, reject zero-size files (note the source
leaves `s_file_transfer_active` set in that branch), emit `STAT_STARTED`,
run the send loop, then close the file, clear the active flag and emit
the terminal status (`Complete` when all bytes were accounted for, else
`StoppedByHost` unless the loop left because of a pause). -/
def runStart (file : List Nat) (sched : Nat → IterEnv) (g : Globals) : Globals :=
  if g.active then send_status g STAT_BUSY
  else
    let g := { g with size := file.length, offset := 0, bytesSent := 0,
                      seq := 0, filePos := 0, active := true,
                      paused := false, fpOpen := true }
    if file.length = 0 then
      { (send_status g STAT_NO_FILE) with fpOpen := false }
    else
      let g := send_status g STAT_STARTED
      let g := xferLoopF file sched (2 * file.length + 1) 0 g
      let completed := g.offset = g.size
      let g := { g with fpOpen := false, active := false }
      if completed then send_status g STAT_COMPLETE
      else if !g.paused then send_status g STAT_STOPPED_BY_HOST
      else g

/-- All payload bytes of a chunk list, in emission order. -/
def payloadBytes (cs : List Chunk) : List Nat :=
  (cs.map Chunk.payload).flatten

end SalesTag

namespace SalesTag

/-- The benign schedule: connection up, fixed negotiated MTU, every
NOTIFY_TX delivery processed promptly, every submission attempt
accepted, no concurrent pause. -/
def goodEnv (mtu : Int) : IterEnv :=
  { pauseSet := none, connUp := true, mtu := mtu, deliveries := kMaxInFlight,
    attempts := fun _ => AttemptRes.sendOk }

/-- Schedule for the credit-timeout run: the peer's controller delays all
"packet left the queue" (NOTIFY_TX) events past the 200 ms credit wait,
so no credit is ever returned; every submission that does get a credit
succeeds.  MTU 23 (the BLE minimum), payload budget 15. -/
def delayedTxSched : Nat → IterEnv := fun _ =>
  { pauseSet := none, connUp := true, mtu := 23, deliveries := 0,
    attempts := fun _ => AttemptRes.sendOk }

/-- C1 (code bug): on a 60-byte file with payload budget 15 and delivery
signals delayed past the credit wait, the worker sends the first three
chunks (exhausting the 3 credits), then times out on the fourth credit —
but the fourth chunk was already `fread` before the wait, so the
`continue` silently drops bytes 45..59: the reassembled payload stream is
only the first 45 bytes of the file, no chunk ever carries `eof=1`, and
the session ends in `StoppedByHost` instead of completing.  Round-trip
fidelity fails on a run whose only disturbance is credit-acquisition
timeouts. -/
theorem credit_timeout_drops_data :
    payloadBytes (runStart (List.range 60) delayedTxSched g0).chunks =
      List.range 45 ∧
    payloadBytes (runStart (List.range 60) delayedTxSched g0).chunks ≠
      List.range 60 ∧
    ((runStart (List.range 60) delayedTxSched g0).chunks.filter
        (fun c => c.eofFlag == 1)).length = 0 ∧
    (runStart (List.range 60) delayedTxSched g0).statuses =
      [STAT_STARTED, STAT_STOPPED_BY_HOST] := by
  decide

/-- Schedule for the pause run: the host writes the pause flag between
the first and second loop iterations; everything else is benign. -/
def pauseSched : Nat → IterEnv := fun i =>
  { pauseSet := if i = 1 then some true else none, connUp := true,
    mtu := 23, deliveries := kMaxInFlight,
    attempts := fun _ => AttemptRes.sendOk }

/-- C6 (code bug): pausing does set a flag that the worker observes only
at the top of the send loop (`file_transfer_pause` on an active session
sets it and emits `Paused`), but the session does NOT survive the pause:
when the worker observes the flag after the first chunk of a 30-byte
transfer it falls out of the `while` loop, closes the file
(`fpOpen = false`) and clears the active flag, and a subsequent
`file_transfer_resume` is a no-op on the now-inactive session — the
transfer never continues from offset 15. -/
theorem pause_tears_down_session :
    (file_transfer_pause { g0 with active := true }).paused = true ∧
    (runStart (List.range 30) pauseSched g0).active = false ∧
    (runStart (List.range 30) pauseSched g0).fpOpen = false ∧
    (runStart (List.range 30) pauseSched g0).paused = true ∧
    (runStart (List.range 30) pauseSched g0).offset = 15 ∧
    (runStart (List.range 30) pauseSched g0).chunks.length = 1 ∧
    file_transfer_resume (runStart (List.range 30) pauseSched g0) =
      runStart (List.range 30) pauseSched g0 := by
  decide

/-! ### The bounded submission retry policy (C7) -/

theorem submitLoop_attemptsUsed_le (att : Nat → AttemptRes) :
    ∀ (fuel k tries : Nat),
      (submitLoop att k tries fuel).attemptsUsed ≤ fuel := by
  intro fuel
  induction fuel with
  | zero => intro k tries; simp [submitLoop]
  | succ fuel ih =>
    intro k tries
    unfold submitLoop
    cases att k <;> dsimp only
    · split
      · have := ih (k + 1) (tries + 1)
        dsimp only
        omega
      · simp
    · simp
    · split
      · have := ih (k + 1) (tries + 1)
        dsimp only
        omega
      · simp
    · simp

theorem submitLoop_sent_or_failed (att : Nat → AttemptRes) :
    ∀ (fuel k tries : Nat),
      (submitLoop att k tries fuel).sent = true ∨
      (submitLoop att k tries fuel).notifyFailed = true := by
  intro fuel
  induction fuel with
  | zero => intro k tries; simp [submitLoop]
  | succ fuel ih =>
    intro k tries
    unfold submitLoop
    cases att k <;> dsimp only
    · split
      · exact ih (k + 1) (tries + 1)
      · simp
    · simp
    · split
      · exact ih (k + 1) (tries + 1)
      · simp
    · simp

/-- Schedule on which every mbuf allocation fails. -/
def allocFailSched : Nat → IterEnv := fun _ =>
  { pauseSet := none, connUp := true, mtu := 23, deliveries := kMaxInFlight,
    attempts := fun _ => AttemptRes.allocFail }

/-- C7: the bounded retry policy of the submission loop.  With no
transport buffer available (`allocFail`) the backoffs are exponential
from 10 ms, doubling and capped at 100 ms (10, 20, 40, 80, 100, 100,
100), for 8 attempts in total; with transient congestion the backoff is a
fixed 8 ms under the same 8-attempt bound; every submission uses at most
`FT_MAX_RETRIES = 8` attempts and either succeeds or ends with
`STAT_NOTIFY_FAIL` emitted and the held credit returned
(`notifyFailed`); and a run that exhausts the bound on its first packet
aborts the session with the credit pool restored to full
(`credits = 3`), the `NotifyFail` status emitted, and the active flag
cleared. -/
theorem bounded_retry_policy :
    submitLoop (fun _ => AttemptRes.allocFail) 0 0 FT_MAX_RETRIES =
      ⟨8, 8, false, true, [10, 20, 40, 80, 100, 100, 100]⟩ ∧
    submitLoop (fun _ => AttemptRes.transientErr) 0 0 FT_MAX_RETRIES =
      ⟨8, 8, false, true, [8, 8, 8, 8, 8, 8, 8]⟩ ∧
    (∀ (att : Nat → AttemptRes) (k : Nat),
      (submitLoop att k 0 FT_MAX_RETRIES).attemptsUsed ≤ FT_MAX_RETRIES) ∧
    (∀ (att : Nat → AttemptRes) (k : Nat),
      (submitLoop att k 0 FT_MAX_RETRIES).sent = true ∨
      (submitLoop att k 0 FT_MAX_RETRIES).notifyFailed = true) ∧
    (runStart (List.range 15) allocFailSched g0).statuses =
      [STAT_STARTED, STAT_NOTIFY_FAIL, STAT_STOPPED_BY_HOST] ∧
    (runStart (List.range 15) allocFailSched g0).credits = kMaxInFlight ∧
    (runStart (List.range 15) allocFailSched g0).active = false ∧
    (runStart (List.range 15) allocFailSched g0).chunks = [] := by
  refine ⟨by decide, by decide,
    fun att k => submitLoop_attemptsUsed_le att FT_MAX_RETRIES k 0,
    fun att k => submitLoop_sent_or_failed att FT_MAX_RETRIES k 0,
    by decide, by decide, by decide, by decide⟩

end SalesTag

namespace SalesTag

/-! ### Credit pool invariant (C4) -/

theorem deliverCredits_inv (d : Nat) (g : Globals)
    (h : g.credits + g.inFlight = kMaxInFlight) :
    (deliverCredits d g).credits + (deliverCredits d g).inFlight =
      kMaxInFlight := by
  unfold deliverCredits kMaxInFlight at *
  dsimp only
  omega

theorem submitChunk_inv (att : Nat → AttemptRes) (n : Nat) (eof : Bool)
    (payload : List Nat) (g : Globals) (h0 : 0 < g.credits)
    (h : g.credits + g.inFlight = kMaxInFlight) :
    (submitChunk att n eof payload g).state.credits +
      (submitChunk att n eof payload g).state.inFlight = kMaxInFlight := by
  unfold submitChunk kMaxInFlight at *
  dsimp only
  repeat' split
  all_goals dsimp only [StepRes.state]
  all_goals omega

theorem xferStep_inv (file : List Nat) (env : IterEnv) (g : Globals)
    (h : g.credits + g.inFlight = kMaxInFlight) :
    (xferStep file env g).state.credits +
      (xferStep file env g).state.inFlight = kMaxInFlight := by
  unfold xferStep
  dsimp only
  repeat' split
  any_goals (dsimp only [StepRes.state, send_status]; exact h)
  · dsimp only [StepRes.state]
    exact deliverCredits_inv _ _ h
  · rename_i hne
    refine submitChunk_inv _ _ _ _ _ ?_ (deliverCredits_inv _ _ h)
    omega

/-- C4: for every file, every environment schedule (arbitrary delivery
delays, arbitrary mbuf/notify outcomes, MTU changes, connection loss,
concurrent pause writes) and every number of loop iterations, if the
worker starts with `credits + inFlight = kMaxInFlight = 3` — i.e. every
token of the pool is either in the semaphore or attached to one
submitted, undelivered notify — then the same holds after the loop, and
the outstanding (acquired-but-not-returned) count
`kMaxInFlight - credits = inFlight` never exceeds the pool capacity 3.
Because every prefix of a run is itself a run (smaller `fuel`), this
bounds every reachable loop-boundary state; within an iteration the one
held credit is accounted by `submitChunk`, which on every exit either
attaches it to the in-flight notify or returns it to the semaphore
(`submitChunk_inv`) — no path leaks it. -/
theorem credit_pool_invariant (file : List Nat) (sched : Nat → IterEnv)
    (fuel i : Nat) (g : Globals)
    (h : g.credits + g.inFlight = kMaxInFlight) :
    (xferLoopF file sched fuel i g).credits +
      (xferLoopF file sched fuel i g).inFlight = kMaxInFlight ∧
    (xferLoopF file sched fuel i g).inFlight ≤ kMaxInFlight ∧
    kMaxInFlight - (xferLoopF file sched fuel i g).credits ≤ kMaxInFlight := by
  have main : ∀ fuel i (g : Globals),
      g.credits + g.inFlight = kMaxInFlight →
      (xferLoopF file sched fuel i g).credits +
        (xferLoopF file sched fuel i g).inFlight = kMaxInFlight := by
    intro fuel
    induction fuel with
    | zero => intro i g hg; simpa [xferLoopF] using hg
    | succ fuel ih =>
      intro i g hg
      have hstep := xferStep_inv file (sched i) g hg
      unfold xferLoopF
      cases hs : xferStep file (sched i) g with
      | done g' =>
        rw [hs] at hstep
        simpa [StepRes.state] using hstep
      | next g' =>
        rw [hs] at hstep
        simp only [StepRes.state] at hstep
        exact ih (i + 1) g' hstep
  have h1 := main fuel i g h
  exact ⟨h1, by omega, by omega⟩

/-- Witness for C4: the invariant applied to a concrete 2-chunk run from
the baseline state. -/
theorem credit_pool_invariant_witness :
    g0.credits + g0.inFlight = kMaxInFlight ∧
    ((xferLoopF (List.range 4) (fun _ => goodEnv 23) 5 0 g0).credits +
        (xferLoopF (List.range 4) (fun _ => goodEnv 23) 5 0 g0).inFlight =
        kMaxInFlight ∧
      (xferLoopF (List.range 4) (fun _ => goodEnv 23) 5 0 g0).inFlight ≤
        kMaxInFlight ∧
      kMaxInFlight -
          (xferLoopF (List.range 4) (fun _ => goodEnv 23) 5 0 g0).credits ≤
        kMaxInFlight) :=
  ⟨by decide,
   credit_pool_invariant (List.range 4) (fun _ => goodEnv 23) 5 0 g0 (by decide)⟩

end SalesTag

namespace SalesTag

theorem submitChunk_sendOk (n : Nat) (eof : Bool) (payload : List Nat)
    (g : Globals) :
    submitChunk (fun _ => AttemptRes.sendOk) n eof payload g =
      if eof then
        StepRes.done
          { g with credits := g.credits - 1, inFlight := g.inFlight + 1,
                   offset := g.offset + n, bytesSent := g.bytesSent + n,
                   seq := (g.seq + 1) % 65536,
                   chunks := g.chunks ++ [mkChunk g.seq n eof payload] }
      else
        StepRes.next
          { g with credits := g.credits - 1, inFlight := g.inFlight + 1,
                   offset := g.offset + n, bytesSent := g.bytesSent + n,
                   seq := (g.seq + 1) % 65536,
                   chunks := g.chunks ++ [mkChunk g.seq n eof payload] } := by
  rfl

theorem deliverCredits_full (g : Globals)
    (h : g.credits + g.inFlight = kMaxInFlight) :
    deliverCredits kMaxInFlight g =
      { g with credits := kMaxInFlight, inFlight := 0 } := by
  unfold deliverCredits kMaxInFlight at *
  dsimp only
  congr 1 <;> omega

/-- The state after one benign-schedule iteration that sends the chunk at
`g.offset`. -/
def goodNext (file : List Nat) (mtu : Int) (g : Globals) : Globals :=
  let n := min (file.length - g.offset) (payload_budget mtu)
  { g with filePos := g.offset + n, offset := g.offset + n,
           bytesSent := g.bytesSent + n, seq := (g.seq + 1) % 65536,
           credits := kMaxInFlight - 1, inFlight := 1,
           chunks := g.chunks ++
             [mkChunk g.seq n (decide (file.length ≤ g.offset + n))
               ((file.drop g.offset).take n)] }

theorem xferStep_good (file : List Nat) (mtu : Int) (g : Globals)
    (ha : g.active = true) (hp : g.paused = false)
    (hfp : g.filePos = g.offset) (hsz : g.size = file.length)
    (hoff : g.offset < file.length)
    (hcr : g.credits + g.inFlight = kMaxInFlight) :
    xferStep file (goodEnv mtu) g =
      if file.length ≤ g.offset + min (file.length - g.offset) (payload_budget mtu)
      then StepRes.done (goodNext file mtu g)
      else StepRes.next (goodNext file mtu g) := by
  have hb := payload_budget_pos mtu
  have hcr' := hcr
  unfold kMaxInFlight at hcr'
  have hrem : ¬ (g.size - g.offset = 0) := by omega
  have hmin : min (min (g.size - g.offset) (payload_budget mtu))
      (file.length - g.filePos) =
      min (file.length - g.offset) (payload_budget mtu) := by
    rw [hfp, hsz]
    omega
  have hn0 : ¬ (min (file.length - g.offset) (payload_budget mtu) = 0) := by
    omega
  unfold xferStep goodEnv
  simp only [Option.getD, ha, hp, Bool.not_false, Bool.and_true, if_true,
    Bool.not_true, Bool.false_eq_true, if_false]
  rw [if_neg hrem, hmin, if_neg hn0]
  rw [deliverCredits_full _ (by simpa [kMaxInFlight] using hcr)]
  rw [submitChunk_sendOk]
  rw [hfp, hsz]
  by_cases heof : file.length ≤ g.offset + min (file.length - g.offset) (payload_budget mtu)
  · unfold goodNext kMaxInFlight
    simp only [heof, if_true, if_pos]
    simp [heof]
    exact ⟨hsz.symm, ha, hp⟩
  · unfold goodNext kMaxInFlight
    simp [heof]
    exact ⟨hsz.symm, ha, hp⟩

end SalesTag

namespace SalesTag

/-- The chunk stream a benign run emits from offset `off` with sequence
counter `s`: packets of `min remaining budget` payload bytes until the
file is exhausted. -/
def goodChunksF (file : List Nat) (b : Nat) : Nat → Nat → Nat → List Chunk
  | 0, _, _ => []
  | fuel + 1, off, s =>
    if file.length - off = 0 then []
    else
      let n := min (file.length - off) b
      mkChunk s n (decide (file.length ≤ off + n)) ((file.drop off).take n) ::
        goodChunksF file b fuel (off + n) ((s + 1) % 65536)

theorem goodChunksF_nil (file : List Nat) (b : Nat) (fuel off s : Nat)
    (h : file.length - off = 0) : goodChunksF file b fuel off s = [] := by
  cases fuel with
  | zero => rfl
  | succ fuel => simp [goodChunksF, h]

theorem goodChunksF_cons (file : List Nat) (b fuel off s : Nat)
    (h : ¬ file.length - off = 0) :
    goodChunksF file b (fuel + 1) off s =
      mkChunk s (min (file.length - off) b)
          (decide (file.length ≤ off + min (file.length - off) b))
          ((file.drop off).take (min (file.length - off) b)) ::
        goodChunksF file b fuel (off + min (file.length - off) b)
          ((s + 1) % 65536) := by
  conv_lhs => unfold goodChunksF
  rw [if_neg h]

theorem xferLoop_good (file : List Nat) (mtu : Int) (sched : Nat → IterEnv)
    (hs : ∀ i, sched i = goodEnv mtu) :
    ∀ (fuel i : Nat) (g : Globals), g.active = true → g.paused = false →
      g.filePos = g.offset → g.size = file.length →
      g.offset ≤ file.length → g.credits + g.inFlight = kMaxInFlight →
      file.length - g.offset < fuel →
      (xferLoopF file sched fuel i g).chunks =
        g.chunks ++ goodChunksF file (payload_budget mtu) fuel g.offset g.seq ∧
      (xferLoopF file sched fuel i g).statuses = g.statuses ∧
      (xferLoopF file sched fuel i g).offset = file.length ∧
      (xferLoopF file sched fuel i g).size = file.length ∧
      (xferLoopF file sched fuel i g).paused = false := by
  intro fuel
  induction fuel with
  | zero => intro i g _ _ _ _ _ _ hfuel; omega
  | succ fuel ih =>
    intro i g ha hp hfp hsz hoff hcr hfuel
    by_cases hrem : file.length - g.offset = 0
    · -- remaining = 0: the loop leaves immediately, no chunk emitted
      have hrem' : g.size - g.offset = 0 := by omega
      have hstep : xferStep file (sched i) g = StepRes.done g := by
        rw [hs i]
        obtain ⟨sz, off, bs, sq, fp, act, pa, fo, cr, fl, rec, cc, sd, crf, q, ch, st⟩ := g
        simp only at ha hp hfp hsz hrem' hoff
        subst ha hp hfp hsz
        unfold xferStep goodEnv
        simp only [Option.getD, Bool.not_false, Bool.and_true, if_true,
          Bool.not_true, Bool.false_eq_true, if_false]
        rw [if_pos hrem']
      unfold xferLoopF
      rw [hstep]
      dsimp only
      rw [goodChunksF_nil file _ _ _ _ hrem]
      refine ⟨by simp, rfl, by omega, hsz, hp⟩
    · have hb := payload_budget_pos mtu
      have hoff2 : g.offset < file.length := by omega
      have hstep := xferStep_good file mtu g ha hp hfp hsz hoff2 hcr
      rw [← hs i] at hstep
      unfold xferLoopF
      by_cases heof :
          file.length ≤ g.offset + min (file.length - g.offset) (payload_budget mtu)
      · rw [hstep, if_pos heof]
        dsimp only
        have hofn : g.offset + min (file.length - g.offset) (payload_budget mtu) =
            file.length := by omega
        unfold goodChunksF goodNext
        rw [if_neg hrem]
        dsimp only
        rw [goodChunksF_nil file _ _ _ _ (by omega)]
        refine ⟨by simp, rfl, by omega, hsz, hp⟩
      · rw [hstep, if_neg heof]
        dsimp only
        have ihres := ih (i + 1) (goodNext file mtu g)
          (by simp [goodNext, ha])
          (by simp [goodNext, hp])
          (by simp [goodNext])
          (by simp [goodNext, hsz])
          (by simp only [goodNext]; omega)
          (by simp [goodNext, kMaxInFlight])
          (by simp only [goodNext]; omega)
        obtain ⟨h1, h2, h3, h4, h5⟩ := ihres
        refine ⟨?_, ?_, h3, h4, h5⟩
        · rw [h1]
          rw [goodChunksF_cons file (payload_budget mtu) fuel g.offset g.seq hrem]
          simp only [goodNext]
          simp [List.append_assoc]
        · rw [h2]
          simp [goodNext]

end SalesTag

namespace SalesTag

/-- The session state just after the `STAT_STARTED` status: fields
initialized per lines 1529-1545. -/
def startInit (file : List Nat) (g : Globals) : Globals :=
  send_status
    { g with size := file.length, offset := 0, bytesSent := 0, seq := 0,
             filePos := 0, active := true, paused := false, fpOpen := true }
    STAT_STARTED

theorem runStart_good (file : List Nat) (mtu : Int) (sched : Nat → IterEnv)
    (hs : ∀ i, sched i = goodEnv mtu) (g : Globals)
    (hact : g.active = false)
    (hcr : g.credits + g.inFlight = kMaxInFlight)
    (hne : file.length ≠ 0) :
    (runStart file sched g).chunks =
      g.chunks ++
        goodChunksF file (payload_budget mtu) (2 * file.length + 1) 0 0 ∧
    (runStart file sched g).statuses =
      g.statuses ++ [STAT_STARTED, STAT_COMPLETE] ∧
    (runStart file sched g).offset = file.length := by
  have hloop := xferLoop_good file mtu sched hs (2 * file.length + 1) 0
    (startInit file g)
    (by simp [startInit, send_status]) (by simp [startInit, send_status])
    (by simp [startInit, send_status]) (by simp [startInit, send_status])
    (by simp [startInit, send_status])
    (by simpa [startInit, send_status] using hcr)
    (by simp only [startInit, send_status]; omega)
  obtain ⟨h1, h2, h3, h4, h5⟩ := hloop
  simp only [startInit, send_status] at h1 h2 h3 h4 h5
  unfold runStart
  rw [if_neg (by simp [hact]), if_neg hne]
  dsimp only
  simp only [send_status]
  rw [if_pos (h3.trans h4.symm)]
  refine ⟨?_, ?_, ?_⟩
  · rw [h1]
  · rw [h2]
    simp
  · exact h3

end SalesTag

namespace SalesTag

/-- The payload sizes of a benign run from `rem` remaining bytes with
budget `b`: `min rem b` per chunk until nothing remains. -/
def chunkLensF (b : Nat) : Nat → Nat → List Nat
  | 0, _ => []
  | fuel + 1, rem =>
    if rem = 0 then [] else min rem b :: chunkLensF b fuel (rem - min rem b)

/-- The eof header bytes of a benign run: 0 on every chunk except the
final one. -/
def eofFlagsF (b : Nat) : Nat → Nat → List Nat
  | 0, _ => []
  | fuel + 1, rem =>
    if rem = 0 then []
    else (if rem ≤ b then 1 else 0) :: eofFlagsF b fuel (rem - min rem b)

theorem goodChunksF_map_len (file : List Nat) (b : Nat) :
    ∀ fuel off s, off ≤ file.length →
      (goodChunksF file b fuel off s).map (fun c => c.payload.length) =
        chunkLensF b fuel (file.length - off) := by
  intro fuel
  induction fuel with
  | zero => intro off s _; rfl
  | succ fuel ih =>
    intro off s hoff
    by_cases hrem : file.length - off = 0
    · rw [goodChunksF_nil file b _ _ _ hrem]
      unfold chunkLensF
      rw [if_pos hrem]
      rfl
    · rw [goodChunksF_cons file b fuel off s hrem]
      unfold chunkLensF
      rw [if_neg hrem]
      simp only [List.map_cons, mkChunk]
      rw [ih (off + min (file.length - off) b) ((s + 1) % 65536) (by omega)]
      have hsub : file.length - (off + min (file.length - off) b) =
          (file.length - off) - min (file.length - off) b := by omega
      rw [hsub]
      congr 1
      simp only [List.length_take, List.length_drop]
      omega

theorem goodChunksF_map_eof (file : List Nat) (b : Nat) :
    ∀ fuel off s, off ≤ file.length →
      (goodChunksF file b fuel off s).map (fun c => c.eofFlag) =
        eofFlagsF b fuel (file.length - off) := by
  intro fuel
  induction fuel with
  | zero => intro off s _; rfl
  | succ fuel ih =>
    intro off s hoff
    by_cases hrem : file.length - off = 0
    · rw [goodChunksF_nil file b _ _ _ hrem]
      unfold eofFlagsF
      rw [if_pos hrem]
      rfl
    · rw [goodChunksF_cons file b fuel off s hrem]
      unfold eofFlagsF
      rw [if_neg hrem]
      simp only [List.map_cons, mkChunk]
      rw [ih (off + min (file.length - off) b) ((s + 1) % 65536) (by omega)]
      have hsub : file.length - (off + min (file.length - off) b) =
          (file.length - off) - min (file.length - off) b := by omega
      rw [hsub]
      congr 1
      by_cases hle : file.length - off ≤ b
      · rw [if_pos hle]
        have hp : file.length ≤ off + min (file.length - off) b := by omega
        simp [hp]
      · rw [if_neg hle]
        have hp : ¬ file.length ≤ off + min (file.length - off) b := by omega
        simp [hp]

end SalesTag

namespace SalesTag

set_option maxRecDepth 2000 in
/-- C2: the per-chunk payload budget is `clamp(MTU - 3 - 5, 1, 195)`
(transport overhead 3, header size 5, maximum packet 200) for every
positive negotiated MTU; and, concretely, a 10,000-byte file with
negotiated MTU 185 is emitted as exactly 57 chunks — 56 chunks of 177
payload bytes and one final 88-byte chunk that alone carries `eof = 1` —
followed by exactly one `Complete` status notification (the status
stream of the run is `[Started, Complete]`). -/
theorem payload_budget_and_worked_example :
    (∀ mtu : Int, 0 < mtu → payload_budget mtu = payload_budget_claim mtu) ∧
    (runStart (List.replicate 10000 0) (fun _ => goodEnv 185) g0).chunks.map
        (fun c => c.payload.length) = List.replicate 56 177 ++ [88] ∧
    (runStart (List.replicate 10000 0) (fun _ => goodEnv 185) g0).chunks.map
        (fun c => c.eofFlag) = List.replicate 56 0 ++ [1] ∧
    (runStart (List.replicate 10000 0) (fun _ => goodEnv 185) g0).statuses =
      [STAT_STARTED, STAT_COMPLETE] := by
  obtain ⟨h1, h2, _⟩ := runStart_good (List.replicate 10000 0) 185
    (fun _ => goodEnv 185) (fun _ => rfl) g0 rfl rfl
    (by rw [List.length_replicate]; decide)
  have hlen : (List.replicate 10000 (0 : Nat)).length = 10000 :=
    List.length_replicate 10000 0
  have hbud : payload_budget 185 = 177 := by decide
  refine ⟨payload_budget_eq_claim, ?_, ?_, ?_⟩
  · rw [h1]
    rw [show g0.chunks = ([] : List Chunk) from rfl, List.nil_append]
    have hmap := goodChunksF_map_len (List.replicate 10000 0)
      (payload_budget 185) (2 * (List.replicate 10000 (0 : Nat)).length + 1)
      0 0 (by omega)
    rw [hbud, hlen] at hmap
    rw [hbud, hlen, hmap]
    decide
  · rw [h1]
    rw [show g0.chunks = ([] : List Chunk) from rfl, List.nil_append]
    have hmap := goodChunksF_map_eof (List.replicate 10000 0)
      (payload_budget 185) (2 * (List.replicate 10000 (0 : Nat)).length + 1)
      0 0 (by omega)
    rw [hbud, hlen] at hmap
    rw [hbud, hlen, hmap]
    decide
  · rw [h2]
    rfl

/-- Witness for C2's universally quantified budget formula at the
negotiated MTU 185 of the worked example. -/
theorem payload_budget_and_worked_example_witness :
    (0 : Int) < 185 ∧ payload_budget 185 = payload_budget_claim 185 :=
  ⟨by decide, payload_budget_and_worked_example.1 185 (by decide)⟩

end SalesTag

namespace SalesTag

theorem chunkSeq_mkChunk (s n : Nat) (eof : Bool) (payload : List Nat) :
    chunkSeq (mkChunk s n eof payload) = s % 65536 := by
  unfold chunkSeq mkChunk
  dsimp only
  have h : (65536 : Nat) = 256 * 256 := by norm_num
  rw [h, Nat.mod_mul]

theorem goodChunksF_seq_get? (file : List Nat) (b : Nat) :
    ∀ fuel off s j, s < 65536 →
      j < (goodChunksF file b fuel off s).length →
      ((goodChunksF file b fuel off s).map chunkSeq).get? j =
        some ((s + j) % 65536) := by
  intro fuel
  induction fuel with
  | zero => intro off s j _ hj; simp [goodChunksF] at hj
  | succ fuel ih =>
    intro off s j hs hj
    by_cases hrem : file.length - off = 0
    · rw [goodChunksF_nil file b _ _ _ hrem] at hj
      simp at hj
    · rw [goodChunksF_cons file b fuel off s hrem] at hj ⊢
      cases j with
      | zero =>
        simp only [List.map_cons, List.get?]
        rw [chunkSeq_mkChunk]
        rw [Nat.add_zero]
      | succ j =>
        simp only [List.map_cons, List.get?]
        simp only [List.length_cons, Nat.succ_lt_succ_iff] at hj
        rw [ih (off + min (file.length - off) b) ((s + 1) % 65536) j
          (Nat.mod_lt _ (by norm_num)) hj]
        congr 1
        rw [Nat.mod_add_mod]
        congr 1
        omega

theorem chunkLensF_length (b : Nat) (hb : 1 ≤ b) :
    ∀ fuel rem, rem ≤ fuel →
      (chunkLensF b fuel rem).length = (rem + b - 1) / b := by
  intro fuel
  induction fuel with
  | zero =>
    intro rem hrem
    have : rem = 0 := by omega
    subst this
    simp [chunkLensF, Nat.div_eq_of_lt (by omega : b - 1 < b)]
  | succ fuel ih =>
    intro rem hrem
    by_cases h0 : rem = 0
    · subst h0
      simp [chunkLensF, Nat.div_eq_of_lt (by omega : b - 1 < b)]
    · unfold chunkLensF
      rw [if_neg h0]
      simp only [List.length_cons]
      rw [ih (rem - min rem b) (by omega)]
      by_cases hle : rem ≤ b
      · have h1 : rem - min rem b = 0 := by omega
        rw [h1]
        have h2 : rem + b - 1 = (rem - 1) + b := by omega
        rw [h2, Nat.add_div_right _ (by omega), Nat.div_eq_of_lt (by omega),
          Nat.div_eq_of_lt (show rem - 1 < b by omega)]
      · have h1 : rem - min rem b = rem - b := by omega
        have h2 : rem - b + b - 1 = rem - 1 := by omega
        have h3 : rem + b - 1 = (rem - 1) + b := by omega
        rw [h1, h2, h3, Nat.add_div_right _ (by omega)]

end SalesTag

namespace SalesTag

/-- C3 counterexample: `s_seq` is a `uint16_t` and wraps.  On a
983,041-byte file at the BLE minimum MTU 23 (payload budget 15) a benign
session emits 65,537 chunks, and the header sequence value of chunk
65,536 is 0 — the same value carried by chunk 0.  The emitted sequence
numbers are therefore not `0, 1, 2, ...` without repeats. -/
theorem seq_wraps_at_65536_counterexample :
    (runStart (List.replicate 983041 0) (fun _ => goodEnv 23) g0).chunks.length
        = 65537 ∧
    ((runStart (List.replicate 983041 0) (fun _ => goodEnv 23) g0).chunks.map
        chunkSeq).get? 0 = some 0 ∧
    ((runStart (List.replicate 983041 0) (fun _ => goodEnv 23) g0).chunks.map
        chunkSeq).get? 65536 = some 0 := by
  obtain ⟨h1, _, _⟩ := runStart_good (List.replicate 983041 0) 23
    (fun _ => goodEnv 23) (fun _ => rfl) g0 rfl rfl
    (by rw [List.length_replicate]; decide)
  have hlen : (List.replicate 983041 (0 : Nat)).length = 983041 :=
    List.length_replicate 983041 0
  have hbud : payload_budget 23 = 15 := by decide
  have hglen : (goodChunksF (List.replicate 983041 0) (payload_budget 23)
      (2 * (List.replicate 983041 (0 : Nat)).length + 1) 0 0).length = 65537 := by
    have hmap := goodChunksF_map_len (List.replicate 983041 0)
      (payload_budget 23) (2 * (List.replicate 983041 (0 : Nat)).length + 1)
      0 0 (by omega)
    have h2 := congrArg List.length hmap
    rw [List.length_map] at h2
    rw [h2, hbud, hlen]
    rw [chunkLensF_length 15 (by norm_num) _ _ (by omega)]
  rw [h1]
  rw [show g0.chunks = ([] : List Chunk) from rfl]
  rw [List.nil_append]
  refine ⟨hglen, ?_, ?_⟩
  · rw [goodChunksF_seq_get? (List.replicate 983041 0) (payload_budget 23)
      _ 0 0 0 (by norm_num) (by omega)]
  · rw [goodChunksF_seq_get? (List.replicate 983041 0) (payload_budget 23)
      _ 0 0 65536 (by norm_num) (by omega)]

end SalesTag

namespace SalesTag

/-- Schedules whose submission attempts never produce a fatal
(non-transient, non-allocation) notify error.  Credit timeouts, delayed
deliveries, mbuf starvation, transient congestion, connection loss and
concurrent pause writes all remain allowed. -/
def NoFatal (sched : Nat → IterEnv) : Prop :=
  ∀ i k, (sched i).attempts k ≠ AttemptRes.fatalErr

theorem submitLoop_noFatal (att : Nat → AttemptRes)
    (hatt : ∀ k, att k ≠ AttemptRes.fatalErr) :
    ∀ fuel k tries, FT_MAX_RETRIES ≤ fuel + tries →
      (submitLoop att k tries fuel).sent = true ∨
      FT_MAX_RETRIES ≤ (submitLoop att k tries fuel).tries := by
  intro fuel
  induction fuel with
  | zero =>
    intro k tries h
    right
    simpa [submitLoop] using h
  | succ fuel ih =>
    intro k tries h
    unfold submitLoop
    cases hk : att k with
    | sendOk => left; rfl
    | fatalErr => exact absurd hk (hatt k)
    | allocFail =>
      dsimp only
      split
      · exact ih (k + 1) (tries + 1) (by omega)
      · right
        rename_i hlt
        unfold FT_MAX_RETRIES at *
        dsimp only
        omega
    | transientErr =>
      dsimp only
      split
      · exact ih (k + 1) (tries + 1) (by omega)
      · right
        rename_i hlt
        unfold FT_MAX_RETRIES at *
        dsimp only
        omega

/-- The per-session sequence-number invariant: the `uint16_t` counter
equals the emitted-chunk count mod `2^16`, and the `j`-th emitted chunk
header carries `j mod 2^16`. -/
def SeqInv (g : Globals) : Prop :=
  g.seq = g.chunks.length % 65536 ∧
  ∀ j, j < g.chunks.length →
    (g.chunks.map chunkSeq).get? j = some (j % 65536)

theorem seqInv_snoc (g : Globals) (n : Nat) (eof : Bool)
    (payload : List Nat) (hinv : SeqInv g) :
    ∀ j, j < g.chunks.length + 1 →
      ((g.chunks ++ [mkChunk g.seq n eof payload]).map chunkSeq).get? j =
        some (j % 65536) := by
  intro j hj
  rw [List.map_append]
  by_cases hlt : j < g.chunks.length
  · rw [List.get?_append (by simpa using hlt)]
    exact hinv.2 j hlt
  · have hj' : j = g.chunks.length := by omega
    subst hj'
    rw [List.map_singleton]
    rw [show g.chunks.length = (g.chunks.map chunkSeq).length from
      (List.length_map _ _).symm]
    rw [List.get?_concat_length]
    rw [List.length_map, chunkSeq_mkChunk, hinv.1]
    congr 1
    omega

theorem submitChunk_seqInv (att : Nat → AttemptRes) (n : Nat) (eof : Bool)
    (payload : List Nat) (g : Globals)
    (hatt : ∀ k, att k ≠ AttemptRes.fatalErr) (hinv : SeqInv g) :
    SeqInv (submitChunk att n eof payload g).state := by
  have hd := submitLoop_noFatal att hatt FT_MAX_RETRIES 0 0 (by omega)
  unfold submitChunk
  dsimp only
  cases hsent : (submitLoop att 0 0 FT_MAX_RETRIES).sent with
  | false =>
    have h8 : FT_MAX_RETRIES ≤ (submitLoop att 0 0 FT_MAX_RETRIES).tries := by
      rcases hd with h | h
      · rw [hsent] at h; cases h
      · exact h
    simp only [hsent, Bool.false_eq_true, if_false]
    rw [if_pos h8]
    exact hinv
  | true =>
    simp only [hsent, if_true]
    by_cases h8 : FT_MAX_RETRIES ≤ (submitLoop att 0 0 FT_MAX_RETRIES).tries
    · rw [if_pos h8]
      exact hinv
    · rw [if_neg h8]
      have hnew : SeqInv
          { g with credits := g.credits - 1, inFlight := g.inFlight + 1,
                   offset := g.offset + n, bytesSent := g.bytesSent + n,
                   seq := (g.seq + 1) % 65536,
                   chunks := g.chunks ++ [mkChunk g.seq n eof payload] } := by
        constructor
        · dsimp only
          simp only [List.length_append, List.length_singleton]
          have h1 := hinv.1
          omega
        · dsimp only
          simp only [List.length_append, List.length_singleton]
          exact fun j hj => seqInv_snoc g n eof payload hinv j (by omega)
      split
      · exact hnew
      · exact hnew

end SalesTag

namespace SalesTag

theorem xferStep_seqInv (file : List Nat) (env : IterEnv) (g : Globals)
    (hatt : ∀ k, env.attempts k ≠ AttemptRes.fatalErr) (hinv : SeqInv g) :
    SeqInv (xferStep file env g).state := by
  unfold xferStep
  dsimp only
  repeat' split
  any_goals (dsimp only [StepRes.state, send_status]; exact hinv)
  all_goals exact submitChunk_seqInv _ _ _ _ _ hatt hinv

theorem xferLoop_seqInv (file : List Nat) (sched : Nat → IterEnv)
    (hnf : NoFatal sched) :
    ∀ fuel i (g : Globals), SeqInv g →
      SeqInv (xferLoopF file sched fuel i g) := by
  intro fuel
  induction fuel with
  | zero => intro i g hg; simpa [xferLoopF] using hg
  | succ fuel ih =>
    intro i g hg
    have hstep := xferStep_seqInv file (sched i) g (hnf i) hg
    unfold xferLoopF
    cases hs : xferStep file (sched i) g with
    | done g' =>
      rw [hs] at hstep
      simpa [StepRes.state] using hstep
    | next g' =>
      rw [hs] at hstep
      simp only [StepRes.state] at hstep
      exact ih (i + 1) g' hstep

theorem startInit_seqInv (file : List Nat) (g : Globals)
    (hch : g.chunks = []) : SeqInv (startInit file g) := by
  constructor
  · show (0 : Nat) = (startInit file g).chunks.length % 65536
    have : (startInit file g).chunks = g.chunks := rfl
    rw [this, hch]
    rfl
  · intro j hj
    have : (startInit file g).chunks = g.chunks := rfl
    rw [this, hch] at hj
    simp at hj

theorem runStart_chunks (file : List Nat) (sched : Nat → IterEnv)
    (g : Globals) :
    (runStart file sched g).chunks = g.chunks ∨
    (runStart file sched g).chunks =
      (xferLoopF file sched (2 * file.length + 1) 0 (startInit file g)).chunks := by
  unfold runStart
  by_cases h1 : g.active = true
  · rw [if_pos h1]
    left
    rfl
  · rw [if_neg h1]
    dsimp only
    by_cases h2 : file.length = 0
    · rw [if_pos h2]
      left
      rfl
    · rw [if_neg h2]
      split
      · right
        rfl
      · split
        · right
          rfl
        · right
          rfl

/-- C3 (amended): within one session, under any schedule of credit
timeouts, delayed deliveries and bounded (allocation or transient-error)
retries, the `j`-th emitted chunk header carries sequence number
`j mod 2^16` — contiguous from 0 with wrap-around at 65536, no gaps; in
particular the headers are exactly `0, 1, 2, ...` without repeats
whenever the session emits at most 65536 chunks.  (The `uint16_t`
counter wraps beyond that — see the counterexample.) -/
theorem seq_contiguous_mod_2_16 (file : List Nat) (sched : Nat → IterEnv)
    (g : Globals) (hnf : NoFatal sched) (hch : g.chunks = []) :
    (∀ j, j < (runStart file sched g).chunks.length →
      ((runStart file sched g).chunks.map chunkSeq).get? j =
        some (j % 65536)) ∧
    ((runStart file sched g).chunks.length ≤ 65536 →
      ∀ j, j < (runStart file sched g).chunks.length →
        ((runStart file sched g).chunks.map chunkSeq).get? j = some j) := by
  have hmain : ∀ j, j < (runStart file sched g).chunks.length →
      ((runStart file sched g).chunks.map chunkSeq).get? j =
        some (j % 65536) := by
    rcases runStart_chunks file sched g with h | h
    · intro j hj
      rw [h, hch] at hj
      simp at hj
    · have hinv := xferLoop_seqInv file sched hnf (2 * file.length + 1) 0
        (startInit file g) (startInit_seqInv file g hch)
      intro j hj
      rw [h] at hj ⊢
      exact hinv.2 j hj
  refine ⟨hmain, fun hle j hj => ?_⟩
  rw [hmain j hj]
  congr 1
  exact Nat.mod_eq_of_lt (by omega)

/-- Witness for C3's amended theorem: on a 3-byte file the single emitted
chunk carries sequence number 0. -/
theorem seq_contiguous_mod_2_16_witness :
    ((runStart [1, 2, 3] (fun _ => goodEnv 185) g0).chunks.map
        chunkSeq).get? 0 = some (0 % 65536) :=
  (seq_contiguous_mod_2_16 [1, 2, 3] (fun _ => goodEnv 185) g0
    (fun i k h => by simp [goodEnv] at h) rfl).1 0 (by decide)

end SalesTag
